import Mathlib

/-!
Shallow embedding of the chat presentation layer of this repository:
`crates/chat-cli/src/cli/chat/prompt.rs`, `crates/chat-cli/src/cli/chat/help.rs`
and `crates/chat-cli/src/cli/chat/util/windows.rs`.
Rust strings are modelled as lists of characters; the mention-resolution
channel pair and the filesystem path completer are modelled as oracle
functions passed in explicitly.
-/

/-- Rust strings, modelled as lists of characters. -/
abbrev Str := List Char

/-- Conversion from a Lean string literal to the character-list model. -/
def str (x : String) : Str := x.data

/-- Rust char::is_whitespace (the prompts only ever trim ASCII whitespace). -/
def isWS (c : Char) : Bool := c.isWhitespace

/-- Rust str::trim_start. -/
def trimStart (s : Str) : Str := s.dropWhile isWS

/-- Rust str::trim_end. -/
def trimEnd (s : Str) : Str := (s.reverse.dropWhile isWS).reverse

/-- Rust str::trim. -/
def trim (s : Str) : Str := trimStart (trimEnd s)

/-- Rust str::find for a single character: index of its first occurrence. -/
def findIdx (c : Char) : Str → Option Nat
  | [] => none
  | a :: l => if a = c then some 0 else (findIdx c l).map (· + 1)

/-- Components extracted from a prompt string (prompt.rs, struct PromptComponents). -/
structure PromptComponents where
  profile : Option Str
  warning : Bool
deriving DecidableEq, Repr

/-- Tail of parse_prompt_components after the profile bracket has been consumed:
the optional warning symbol check followed by the mandatory trailing `>` check. -/
def finishParse (profile : Option Str) (r : Str) : Option PromptComponents :=
  match r with
  | '!' :: rest =>
    if trimEnd (trimStart rest) = ['>'] then some ⟨profile, true⟩ else none
  | _ => if trimEnd r = ['>'] then some ⟨profile, false⟩ else none

/-- prompt.rs, fn parse_prompt_components: trims the prompt, extracts the first
`[`...`]` pair as the profile when the `[` occurs before the `]`, then an optional
leading `!` as the warning flag, and requires the remainder to be exactly `>`. -/
def parse_prompt_components (prompt : Str) : Option PromptComponents :=
  match findIdx '[' (trim prompt), findIdx ']' (trim prompt) with
  | some st, some en =>
    if st < en then
      finishParse (some (((trim prompt).drop (st + 1)).take (en - st - 1)))
        (trimStart ((trim prompt).drop (en + 1)))
    else finishParse none (trim prompt)
  | _, _ => finishParse none (trim prompt)

/-- prompt.rs, fn generate_prompt: plain-text prompt from profile and warning flag. -/
def generate_prompt (current_profile : Option Str) (warning : Bool) : Str :=
  let warning_symbol : Str := if warning then ['!'] else []
  let profile_part : Str :=
    match current_profile with
    | none => []
    | some p => if p = str "default" then [] else '[' :: (p ++ [']', ' '])
  profile_part ++ warning_symbol ++ ['>', ' ']

/-- Dropping a leading-whitespace scan never stops inside an appended block whose
head is a non-whitespace character. -/
lemma trimStart_append_not_ws (c : Char) (hc : isWS c = false) (A B : Str) :
    trimStart (A ++ c :: B) = trimStart A ++ c :: B := by
  induction A with
  | nil => simp [trimStart, List.dropWhile_cons, hc]
  | cons a t ih =>
    by_cases ha : isWS a
    · simp only [List.cons_append, trimStart, List.dropWhile_cons, ha, if_true]
      exact ih
    · simp [trimStart, List.dropWhile_cons, ha]

/-- trimStart only removes characters, so membership is preserved backwards. -/
lemma mem_trimStart {a : Char} {l : Str} (h : a ∈ trimStart l) : a ∈ l := by
  induction l with
  | nil => exact h
  | cons b t ih =>
    by_cases hb : isWS b
    · simp only [trimStart, List.dropWhile_cons, hb, if_true] at h
      exact List.mem_cons_of_mem _ (ih h)
    · simp [trimStart, List.dropWhile_cons, hb] at h
      exact List.mem_cons.2 h

/-- Trimming the end of a list ending in a non-whitespace character followed by a
single space removes exactly that space. -/
lemma trimEnd_append_two (X : Str) (c : Char) (hc : isWS c = false) :
    trimEnd (X ++ [c, ' ']) = X ++ [c] := by
  have hsp : isWS ' ' = true := by decide
  simp [trimEnd, List.reverse_append, List.dropWhile_cons, hsp, hc]

/-- The first occurrence of a character sits right after a block that avoids it. -/
lemma findIdx_append (c : Char) (A Z : Str) (h : c ∉ A) :
    findIdx c (A ++ c :: Z) = some A.length := by
  induction A with
  | nil => simp [findIdx]
  | cons a t ih =>
    have ha : ¬a = c := fun e => h (by simp [e])
    have ht : c ∉ t := fun hm => h (List.mem_cons_of_mem _ hm)
    simp [findIdx, ha, ih ht]

/-- Taking the length of the left block of an append returns that block. -/
lemma take_len (A B : Str) : (A ++ B).take A.length = A := by
  induction A with
  | nil => simp
  | cons a t ih => simp [ih]

/-- Dropping the length of the left block of an append returns the right block. -/
lemma drop_len (A B : Str) : (A ++ B).drop A.length = B := by
  induction A with
  | nil => simp
  | cons a t ih => simp [ih]

/-- Master round-trip lemma: parsing any prompt of the shape
junk ++ "[" ++ p ++ "] " ++ warning ++ "> " recovers profile p and the warning
flag, provided the junk contains neither bracket and p contains no closing
bracket. -/
lemma parse_general (junk p : Str) (h1 : '[' ∉ junk) (h2 : ']' ∉ junk)
    (hp : ']' ∉ p) (w : Bool) :
    parse_prompt_components
      (junk ++ ['['] ++ p ++ [']', ' '] ++ (if w then ['!'] else []) ++ ['>', ' '])
      = some ⟨some p, w⟩ := by
  have hJl : '[' ∉ trimStart junk := fun h => h1 (mem_trimStart h)
  have hJr : ']' ∉ trimStart junk := fun h => h2 (mem_trimStart h)
  set J := trimStart junk with hJ
  -- the tail after the closing bracket, made concrete by the warning flag
  set w1 : Str := (if w then ['!'] else []) ++ ['>'] with hw1
  have hbr : isWS '[' = false := by decide
  have hgt : isWS '>' = false := by decide
  -- step 1: the trimmed prompt
  have htrim :
      trim (junk ++ ['['] ++ p ++ [']', ' '] ++ (if w then ['!'] else []) ++ ['>', ' '])
        = J ++ '[' :: (p ++ ']' :: ' ' :: w1) := by
    have e1 : junk ++ ['['] ++ p ++ [']', ' '] ++ (if w then ['!'] else []) ++ ['>', ' ']
        = (junk ++ ['['] ++ p ++ [']', ' '] ++ (if w then ['!'] else [])) ++ ['>', ' '] := by
      simp [List.append_assoc]
    have e2 : trimEnd ((junk ++ ['['] ++ p ++ [']', ' '] ++ (if w then ['!'] else [])) ++ ['>', ' '])
        = (junk ++ ['['] ++ p ++ [']', ' '] ++ (if w then ['!'] else [])) ++ ['>'] := by
      exact trimEnd_append_two _ '>' hgt
    have e3 : (junk ++ ['['] ++ p ++ [']', ' '] ++ (if w then ['!'] else [])) ++ ['>']
        = junk ++ '[' :: (p ++ ']' :: ' ' :: w1) := by
      simp [hw1, List.append_assoc]
    have e4 : trimStart (junk ++ '[' :: (p ++ ']' :: ' ' :: w1))
        = J ++ '[' :: (p ++ ']' :: ' ' :: w1) := trimStart_append_not_ws '[' hbr _ _
    rw [trim, e1, e2, e3, e4]
  -- step 2: the two bracket positions in the trimmed prompt
  have hfind1 : findIdx '[' (J ++ '[' :: (p ++ ']' :: ' ' :: w1)) = some J.length :=
    findIdx_append '[' J _ hJl
  have hfind2 : findIdx ']' (J ++ '[' :: (p ++ ']' :: ' ' :: w1))
      = some (J.length + 1 + p.length) := by
    have hA : ']' ∉ J ++ '[' :: p := by
      intro hm
      rcases List.mem_append.1 hm with hm | hm
      · exact hJr hm
      · rcases List.mem_cons.1 hm with hm | hm
        · exact absurd hm.symm (by decide)
        · exact hp hm
    have e : J ++ '[' :: (p ++ ']' :: ' ' :: w1) = (J ++ '[' :: p) ++ ']' :: (' ' :: w1) := by
      simp [List.append_assoc]
    rw [e, findIdx_append ']' _ _ hA]
    simp [Nat.add_comm, Nat.add_assoc, Nat.add_left_comm]
  -- step 3: the extracted profile
  have hprof : ((J ++ '[' :: (p ++ ']' :: ' ' :: w1)).drop (J.length + 1)).take
      ((J.length + 1 + p.length) - J.length - 1) = p := by
    have e : J ++ '[' :: (p ++ ']' :: ' ' :: w1) = (J ++ ['[']) ++ (p ++ ']' :: ' ' :: w1) := by
      simp [List.append_assoc]
    have hlen : (J ++ ['[']).length = J.length + 1 := by simp
    have harith : (J.length + 1 + p.length) - J.length - 1 = p.length := by omega
    rw [e, harith, ← hlen, drop_len, take_len]
  -- step 4: the remainder after the closing bracket
  have hrem : trimStart ((J ++ '[' :: (p ++ ']' :: ' ' :: w1)).drop (J.length + 1 + p.length + 1))
      = w1 := by
    have e : J ++ '[' :: (p ++ ']' :: ' ' :: w1) = (J ++ '[' :: p ++ [']']) ++ (' ' :: w1) := by
      simp [List.append_assoc]
    have hlen : (J ++ '[' :: p ++ [']']).length = J.length + 1 + p.length + 1 := by
      simp [Nat.add_comm, Nat.add_assoc, Nat.add_left_comm]
    have hsp : isWS ' ' = true := by decide
    have hw1ts : trimStart w1 = w1 := by
      cases w <;> simp [hw1, trimStart, List.dropWhile_cons] <;> decide
    rw [e, ← hlen, drop_len]
    simpa [trimStart, List.dropWhile_cons, hsp] using hw1ts
  -- assemble
  rw [parse_prompt_components, htrim, hfind1, hfind2]
  have hlt : J.length < J.length + 1 + p.length := by omega
  dsimp only
  rw [if_pos hlt, hprof, hrem]
  cases w <;> simp [hw1, finishParse] <;> decide

/-- prompt.rs, const COMMANDS: the fixed command/subcommand completion list,
in declaration order. -/
def COMMANDS : List Str := [
  str "/clear",
  str "/help",
  str "/editor",
  str "/issue",
  str "/quit",
  str "/tools",
  str "/tools trust",
  str "/tools untrust",
  str "/tools trustall",
  str "/tools reset",
  str "/profile",
  str "/profile help",
  str "/profile list",
  str "/profile create",
  str "/profile delete",
  str "/profile rename",
  str "/profile set",
  str "/context help",
  str "/context show",
  str "/context show --expand",
  str "/context add",
  str "/context add --global",
  str "/context rm",
  str "/context rm --global",
  str "/context clear",
  str "/context clear --global",
  str "/context hooks help",
  str "/context hooks add",
  str "/context hooks rm",
  str "/context hooks enable",
  str "/context hooks disable",
  str "/context hooks enable-all",
  str "/context hooks disable-all",
  str "/compact",
  str "/compact help",
  str "/usage",
  str "/save",
  str "/load"]

/-- Rust str::starts_with for a single character. -/
def startsWithChar (c : Char) (l : Str) : Bool :=
  match l with
  | [] => false
  | a :: _ => a = c

/-- winnow AsChar::is_space, the break predicate used by the completer: an ASCII
space or tab. -/
def is_space (c : Char) : Bool := c = ' ' || c = '\t'

/-- Modelled from the spec: rustyline extract_word (the line-editing library is
an external collaborator, not part of this repository). The word under the
cursor is found by scanning backward from the cursor to the nearest break
character (here: space or tab); the function returns the word start index and
the word itself. -/
def extract_word (line : Str) (pos : Nat) : Nat × Str :=
  let pre := line.take pos
  let w := (pre.reverse.takeWhile (fun c => !is_space c)).reverse
  (pre.length - w.length, w)

/-- prompt.rs, fn complete_command: every COMMANDS entry with the given word as a
prefix, in declaration order, paired with the word start position. -/
def complete_command (word : Str) (start : Nat) : Nat × List Str :=
  (start, (COMMANDS.filter (fun p => word.isPrefixOf p)))

/-- rustyline ReadlineError, restricted to the I/O variant produced in prompt.rs. -/
inductive ReadlineError where
  | io : Str → ReadlineError
deriving DecidableEq, Repr

/-- The request sent over the mention channel: Some(word) for a non-empty search
word, None otherwise (prompt.rs, PromptCompleter::complete_prompt). -/
def toReq (word : Str) : Option Str :=
  if word.isEmpty then none else some word

/-- prompt.rs, PromptCompleter::complete_prompt. The blocking send/recv
round-trip over the channel pair is modelled by an oracle mapping the request to
either the collaborator's reply or a channel-closure error; a closure at either
end surfaces as ReadlineError::Io. Each returned name is prefixed with `@`. -/
def complete_prompt (promptOracle : Option Str → Except Str (List Str))
    (word : Str) : Except ReadlineError (List Str) :=
  match promptOracle (toReq word) with
  | .error e => .error (.io e)
  | .ok names => .ok (names.map (fun n => '@' :: n))

/-- prompt.rs, the tail of ChatCompleter::complete: the filesystem path
completion fallback (PathCompleter::complete_path, whose filename completer is
modelled as an oracle), followed by the default empty result. A path-completer
error or an empty path result both yield Ok with the original word span and no
candidates. -/
def path_fallback (pathOracle : Str → Nat → Except ReadlineError (Nat × List Str))
    (line : Str) (pos start : Nat) : Except ReadlineError (Nat × List Str) :=
  match pathOracle line pos with
  | .ok (p, completions) =>
    if completions.isEmpty then .ok (start, []) else .ok (p, completions)
  | .error _ => .ok (start, [])

/-- prompt.rs, ChatCompleter::complete: extracts the word under the cursor;
a word starting with `/` is completed against COMMANDS; otherwise a line
starting with `@` sends the rest of the line to the mention collaborator and
returns its non-empty reply with replacement position 0; in every other case
(including a mention error or an empty mention reply) the filesystem path
fallback runs. -/
def ChatCompleter.complete (promptOracle : Option Str → Except Str (List Str))
    (pathOracle : Str → Nat → Except ReadlineError (Nat × List Str))
    (line : Str) (pos : Nat) : Except ReadlineError (Nat × List Str) :=
  let sw := extract_word line pos
  if startsWithChar '/' sw.2 then
    .ok (complete_command sw.2 sw.1)
  else if startsWithChar '@' line then
    match complete_prompt promptOracle (line.drop 1) with
    | .ok completions =>
      if completions.isEmpty then path_fallback pathOracle line pos sw.1
      else .ok (0, completions)
    | .error _ => path_fallback pathOracle line pos sw.1
  else path_fallback pathOracle line pos sw.1

/-- Rust str::starts_with for a pattern, as a Bool. -/
def startsWith (pat l : Str) : Bool := pat.isPrefixOf l

/-- Rust str::ends_with for a pattern, as a Bool. -/
def endsWith (pat l : Str) : Bool := pat.reverse.isPrefixOf l.reverse

/-- rustyline ValidationResult, restricted to the variants produced in prompt.rs. -/
inductive ValidationResult where
  | incomplete
  | valid
deriving DecidableEq, Repr

/-- prompt.rs, MultiLineValidator::validate: incomplete when the buffer opens a
triple-backtick fence without closing one, or ends with a backslash
continuation; valid otherwise. -/
def MultiLineValidator.validate (input : Str) : ValidationResult :=
  if startsWith (str "```") input && !endsWith (str "```") input then
    .incomplete
  else if endsWith (str "\\") input then
    .incomplete
  else
    .valid

/-- help.rs, struct SubCommand. -/
structure SubCommand where
  name : Str
  description : Str
deriving DecidableEq, Repr

/-- help.rs, struct CommandHelp. -/
structure CommandHelp where
  command : Str
  description : Str
  subcommands : List SubCommand
  supported_os : List Str
deriving DecidableEq, Repr

/-- help.rs, const HELP_COMMANDS: the ordered help table. -/
def HELP_COMMANDS : List CommandHelp := [
  ⟨str "/clear", str "Clear the conversation history", [], [str "all"]⟩,
  ⟨str "/issue", str "Report an issue or make a feature request", [], [str "all"]⟩,
  ⟨str "/editor", str "Open $EDITOR (defaults to vi) to compose a prompt", [], [str "unix"]⟩,
  ⟨str "/help", str "Show this help dialogue", [], [str "all"]⟩,
  ⟨str "/quit", str "Quit the application", [], [str "all"]⟩,
  ⟨str "/compact", str "Summarize the conversation to free up context space",
    [⟨str "help", str "Show help for the compact command"⟩,
     ⟨str "[prompt]", str "Optional custom prompt to guide summarization"⟩],
    [str "all"]⟩,
  ⟨str "/tools", str "View and manage tools and permissions",
    [⟨str "help", str "Show an explanation for the trust command"⟩,
     ⟨str "trust", str "Trust a specific tool or tools for the session"⟩,
     ⟨str "untrust", str "Revert a tool or tools to per-request confirmation"⟩,
     ⟨str "trustall", str "Trust all tools (equivalent to deprecated /acceptall)"⟩,
     ⟨str "reset", str "Reset all tools to default permission levels"⟩],
    [str "all"]⟩,
  ⟨str "/mcp", str "See mcp server loaded", [], [str "all"]⟩,
  ⟨str "/model", str "Select a model for the current conversation session", [], [str "all"]⟩,
  ⟨str "/profile", str "Manage profiles",
    [⟨str "help", str "Show profile help"⟩,
     ⟨str "list", str "List profiles"⟩,
     ⟨str "set", str "Set the current profile"⟩,
     ⟨str "create", str "Create a new profile"⟩,
     ⟨str "delete", str "Delete a profile"⟩,
     ⟨str "rename", str "Rename a profile"⟩],
    [str "all"]⟩,
  ⟨str "/prompts", str "View and retrieve prompts",
    [⟨str "help", str "Show prompts help"⟩,
     ⟨str "list", str "List or search available prompts"⟩,
     ⟨str "get", str "Retrieve and send a prompt"⟩],
    [str "all"]⟩,
  ⟨str "/context", str "Manage context files and hooks for the chat session",
    [⟨str "help", str "Show context help"⟩,
     ⟨str "show", str "Display current context rules configuration [--expand]"⟩,
     ⟨str "add", str "Add file(s) to context [--global] [--force]"⟩,
     ⟨str "rm", str "Remove file(s) from context [--global]"⟩,
     ⟨str "clear", str "Clear all files from current context [--global]"⟩,
     ⟨str "hooks", str "View and manage context hooks"⟩],
    [str "all"]⟩,
  ⟨str "/usage", str "Show current session\x27s context window usage", [], [str "all"]⟩,
  ⟨str "/load", str "Load conversation state from a JSON file", [], [str "all"]⟩,
  ⟨str "/save", str "Save conversation state to a JSON file", [], [str "all"]⟩,
  ⟨str "/subscribe", str "Upgrade to a Q Developer Pro subscription for increased query limits",
    [⟨str "manage", str "View and manage your existing subscription on AWS"⟩],
    [str "all"]⟩]

/-- help.rs, the OS filter inside generate_help_text: a command is skipped
unless its supported_os contains "all" or the current OS tag. -/
def included_on (cmd : CommandHelp) (current_os : Str) : Bool :=
  cmd.supported_os.contains (str "all") || cmd.supported_os.contains current_os

/-- The help-table entries that survive the OS filter, in declaration order. -/
def help_entries (current_os : Str) : List CommandHelp :=
  HELP_COMMANDS.filter (fun c => included_on c current_os)

/-- One rendered command block of the help text: command and description on one
line, then each subcommand indented beneath it (ANSI styling emitted by the
color_print macros is abstracted away; the literal names and descriptions are
kept). -/
def render_command (c : CommandHelp) : Str :=
  c.command ++ str "        " ++ c.description ++ [Char.ofNat 10] ++
    (c.subcommands.map
      (fun sc => str "  " ++ sc.name ++ str "        " ++ sc.description ++ [Char.ofNat 10])).foldr
      (· ++ ·) []

/-- help.rs, fn generate_help_text, parametrized by the OS tag that the source
selects at compile time via cfg!(windows)/cfg!(unix): header, the OS-filtered
command table, and the fixed MCP and Tips trailer sections (ANSI styling
abstracted away, literal text kept). -/
def generate_help_text (current_os : Str) : Str :=
  str "\n\nq (Amazon Q Chat)\n\nCommands:\n" ++
    ((help_entries current_os).map render_command).foldr (· ++ ·) [] ++
    str "\nMCP:\nYou can now configure the Amazon Q CLI to use MCP servers. \\nLearn how: https://docs.aws.amazon.com/en_us/amazonq/latest/qdeveloper-ug/command-line-mcp.html\n\n" ++
    str "Tips:\n!\x7bcommand\x7d            Quickly execute a command in your current session\n" ++
    str "Ctrl(^) + j           Insert new-line to provide multi-line prompt. Alternatively, [Alt(⌥) + Enter(⏎)]\n" ++
    str "Ctrl(^) + s           Fuzzy search commands and context files. Use Tab to select multiple items.\n" ++
    str "                      Change the keybind to ctrl+x with: q settings chat.skimCommandKey x (where x is any key)\n" ++
    str "chat.editMode         Set editing mode (vim or emacs) using: q settings chat.editMode vi/emacs\n\n"

/-- Substring test: some suffix of the haystack starts with the needle. -/
def hasSub (needle hay : Str) : Bool :=
  (List.range (hay.length + 1)).any (fun i => needle.isPrefixOf (hay.drop i))

/-- windows.rs, const ENABLE_VIRTUAL_TERMINAL_PROCESSING. -/
def ENABLE_VIRTUAL_TERMINAL_PROCESSING : Nat := 4

/-- windows.rs, fn enable_ansi_support. The three console API calls are modelled
as oracles: the stdout handle value (0 when unavailable), GetConsoleMode (none
when the call fails, otherwise the current mode), and SetConsoleMode (false when
the call fails). Every path returns Ok. -/
def enable_ansi_support (getStdHandle : Int)
    (getConsoleMode : Int → Option Nat) (setConsoleMode : Int → Nat → Bool) :
    Except Str Unit :=
  if getStdHandle = 0 then .ok ()
  else
    match getConsoleMode getStdHandle with
    | none => .ok ()
    | some mode =>
      if setConsoleMode getStdHandle (mode ||| ENABLE_VIRTUAL_TERMINAL_PROCESSING) = false then
        .ok ()
      else .ok ()

/-- The first character of any generated prompt is an opening bracket, the
warning symbol, or the prompt arrow. -/
lemma generate_head (cp : Option Str) (w : Bool) :
    (generate_prompt cp w).head? = some '[' ∨ (generate_prompt cp w).head? = some '!' ∨
    (generate_prompt cp w).head? = some '>' := by
  rcases cp with _ | q
  · cases w <;> simp [generate_prompt]
  · by_cases hq : q = str "default"
    · cases w <;> simp [generate_prompt, hq]
    · cases w <;> simp [generate_prompt, hq]

example : generate_prompt none false = str "> " := by decide
example : generate_prompt none true = str "!> " := by decide
example : generate_prompt (some (str "default")) false = str "> " := by decide
example : generate_prompt (some (str "dev")) true = str "[dev] !> " := by decide
example : parse_prompt_components (str "> ") = some ⟨none, false⟩ := by decide
example : parse_prompt_components (str "!> ") = some ⟨none, true⟩ := by decide
example : parse_prompt_components (str "[test] > ") = some ⟨some (str "test"), false⟩ := by decide
example : parse_prompt_components (str "[dev] !> ") = some ⟨some (str "dev"), true⟩ := by decide
example : parse_prompt_components (str "invalid") = none := by decide
example : parse_prompt_components (generate_prompt (some (str "]")) false) = none := by decide

/-- C1 counterexample: for the profile string "]" the round trip fails: the
generated prompt "[]] > " parses to none, not to profile "]". -/
theorem prompt_roundtrip_cex :
    generate_prompt (some (str "]")) false = str "[]] > " ∧
    parse_prompt_components (generate_prompt (some (str "]")) false) = none ∧
    parse_prompt_components (generate_prompt (some (str "]")) false)
      ≠ some ⟨some (str "]"), false⟩ :=
  ⟨by decide, by decide, by decide⟩

/-- C1 (amended): for every profile string p that is not "default" and contains
no closing bracket, and every warning flag w, parsing the generated prompt
recovers profile p and flag w; for an absent or "default" profile it recovers
no profile and flag w. -/
theorem prompt_roundtrip_amended (p : Str) (hd : p ≠ str "default")
    (hb : ']' ∉ p) (w : Bool) :
    parse_prompt_components (generate_prompt (some p) w) = some ⟨some p, w⟩ ∧
    parse_prompt_components (generate_prompt none w) = some ⟨none, w⟩ ∧
    parse_prompt_components (generate_prompt (some (str "default")) w)
      = some ⟨none, w⟩ := by
  refine ⟨?_, ?_, ?_⟩
  · have h := parse_general [] p (by simp) (by simp) hb w
    have e : generate_prompt (some p) w
        = [] ++ ['['] ++ p ++ [']', ' '] ++ (if w then ['!'] else []) ++ ['>', ' '] := by
      simp [generate_prompt, hd, List.append_assoc]
    rw [e]
    exact h
  · cases w <;> decide
  · cases w <;> decide

/-- C1 amended witness at profile "dev" with warning set. -/
theorem prompt_roundtrip_amended_witness :
    parse_prompt_components (generate_prompt (some (str "dev")) true)
      = some ⟨some (str "dev"), true⟩ :=
  (prompt_roundtrip_amended (str "dev") (by decide) (by decide) true).1

/-- C10: parse_prompt_components ignores any bracket-free text before the first
opening bracket, so "junk [p] > " parses to profile p; and no generate_prompt
output ever equals "junk [p] > ", so parse success does not imply the input was
produced by generate_prompt. -/
theorem parse_accepts_leading_junk (junk p : Str) (h1 : '[' ∉ junk)
    (h2 : ']' ∉ junk) (hp : ']' ∉ p) :
    parse_prompt_components (junk ++ ['['] ++ p ++ str "] > ")
      = some ⟨some p, false⟩ ∧
    (∀ cp w, generate_prompt cp w ≠ str "junk [p] > ") := by
  constructor
  · have h := parse_general junk p h1 h2 hp false
    simp only [List.append_assoc] at h
    have e0 : [']', ' '] ++ ((if false then ['!'] else []) ++ (['>', ' '] : Str))
        = str "] > " := by decide
    rw [e0] at h
    simp only [List.append_assoc]
    exact h
  · intro cp w heq
    have hh := generate_head cp w
    rw [heq] at hh
    rcases hh with h | h | h <;> exact absurd h (by decide)

/-- C10 witness at the concrete input "junk [p] > ". -/
theorem parse_accepts_leading_junk_witness :
    parse_prompt_components (str "junk [p] > ") = some ⟨some (str "p"), false⟩ := by
  have h := (parse_accepts_leading_junk (str "junk ") (str "p")
    (by decide) (by decide) (by decide)).1
  have e : str "junk " ++ ['['] ++ str "p" ++ str "] > " = str "junk [p] > " := by decide
  rw [e] at h
  exact h

/-- C5: whenever the word under the cursor starts with a slash, the dispatcher
returns exactly the COMMANDS entries with that word as a prefix, in declaration
order, at the word start position — regardless of the channel and path oracles. -/
theorem command_completion_spec
    (promptOracle : Option Str → Except Str (List Str))
    (pathOracle : Str → Nat → Except ReadlineError (Nat × List Str))
    (line : Str) (pos : Nat)
    (h : startsWithChar '/' (extract_word line pos).2 = true) :
    ChatCompleter.complete promptOracle pathOracle line pos
      = .ok ((extract_word line pos).1,
          COMMANDS.filter (fun c => (extract_word line pos).2.isPrefixOf c)) := by
  simp [ChatCompleter.complete, h, complete_command]

/-- C5 witness: input "/h" at cursor 2 yields exactly ["/help"] at position 0. -/
theorem command_completion_witness :
    startsWithChar '/' (extract_word (str "/h") 2).2 = true ∧
    ChatCompleter.complete (fun _ => Except.ok []) (fun _ _ => Except.ok (0, []))
      (str "/h") 2 = Except.ok (0, [str "/help"]) :=
  ⟨by decide,
    (command_completion_spec (fun _ => Except.ok []) (fun _ _ => Except.ok (0, []))
      (str "/h") 2 (by decide)).trans (by rfl)⟩

/-- C4: on a mention line (line starts with `@`, cursor word does not start with
`/`), an empty collaborator reply makes the dispatcher fall through to the path
fallback, while a non-empty reply of names is returned as `@`-prefixed
candidates at position 0, independent of the path oracle. -/
theorem mention_dispatch
    (promptOracle : Option Str → Except Str (List Str))
    (pathOracle : Str → Nat → Except ReadlineError (Nat × List Str))
    (line : Str) (pos : Nat)
    (h1 : startsWithChar '@' line = true)
    (h2 : startsWithChar '/' (extract_word line pos).2 = false) :
    (promptOracle (toReq (line.drop 1)) = .ok [] →
      ChatCompleter.complete promptOracle pathOracle line pos
        = path_fallback pathOracle line pos (extract_word line pos).1) ∧
    (∀ names, names ≠ [] → promptOracle (toReq (line.drop 1)) = .ok names →
      ChatCompleter.complete promptOracle pathOracle line pos
        = .ok (0, names.map (fun n => '@' :: n))) := by
  constructor
  · intro hresp
    rw [List.drop_one] at hresp
    simp [ChatCompleter.complete, h1, h2, complete_prompt, hresp]
  · intro names hne hresp
    rw [List.drop_one] at hresp
    have hmap : names.map (fun n => '@' :: n) ≠ [] := by
      cases names with
      | nil => exact absurd rfl hne
      | cons a l => simp
    simp [ChatCompleter.complete, h1, h2, complete_prompt, hresp, hmap]

/-- C4 witness: line "@foo" with reply ["alice","bob"] yields
["@alice","@bob"] at position 0. -/
theorem mention_dispatch_witness :
    ChatCompleter.complete (fun _ => Except.ok [str "alice", str "bob"])
      (fun _ _ => Except.ok (0, [])) (str "@foo") 4
      = Except.ok (0, [str "@alice", str "@bob"]) := by
  have h := (mention_dispatch (fun _ => Except.ok [str "alice", str "bob"])
    (fun _ _ => Except.ok (0, [])) (str "@foo") 4 (by decide) (by decide)).2
    [str "alice", str "bob"] (by decide) rfl
  exact h.trans (by rfl)

/-- C2 counterexample: with the mention channel closed (the oracle reports an
error), ChatCompleter::complete on "@foo" returns Ok with an empty candidate
list instead of surfacing an I/O-kind error. -/
theorem mention_channel_error_swallowed_cex :
    ChatCompleter.complete (fun _ => Except.error (str "channel closed"))
      (fun _ _ => Except.ok (0, [])) (str "@foo") 4 = Except.ok (0, []) := by rfl

/-- C2 (amended): a closed channel surfaces as an I/O-kind ReadlineError from
PromptCompleter::complete_prompt to its immediate caller ChatCompleter::complete,
but complete swallows that error and falls through to the path fallback instead
of returning it. -/
theorem mention_channel_error_amended
    (promptOracle : Option Str → Except Str (List Str))
    (pathOracle : Str → Nat → Except ReadlineError (Nat × List Str))
    (line : Str) (pos : Nat) (e : Str)
    (h1 : startsWithChar '@' line = true)
    (h2 : startsWithChar '/' (extract_word line pos).2 = false)
    (h3 : promptOracle (toReq (line.drop 1)) = .error e) :
    complete_prompt promptOracle (line.drop 1) = .error (.io e) ∧
    ChatCompleter.complete promptOracle pathOracle line pos
      = path_fallback pathOracle line pos (extract_word line pos).1 := by
  rw [List.drop_one] at h3
  constructor
  · simp [complete_prompt, h3]
  · simp [ChatCompleter.complete, h1, h2, complete_prompt, h3]

/-- C2 amended witness at line "@foo" with a closed channel. -/
theorem mention_channel_error_amended_witness :
    complete_prompt (fun _ => Except.error (str "closed")) (str "foo")
      = Except.error (ReadlineError.io (str "closed")) ∧
    ChatCompleter.complete (fun _ => Except.error (str "closed"))
      (fun _ _ => Except.ok (0, [])) (str "@foo") 4
      = path_fallback (fun _ _ => Except.ok (0, [])) (str "@foo") 4 0 := by
  have h := mention_channel_error_amended (fun _ => Except.error (str "closed"))
    (fun _ _ => Except.ok (0, [])) (str "@foo") 4 (str "closed")
    (by decide) (by decide) rfl
  exact h

/-- C3 counterexample: when the path completer errors on plain text input, the
dispatcher returns Ok with an empty candidate list — the same result as "no
candidates" — rather than propagating the error. -/
theorem path_error_swallowed_cex :
    ChatCompleter.complete (fun _ => Except.ok [])
      (fun _ _ => Except.error (ReadlineError.io (str "io failure")))
      (str "hello") 5 = Except.ok (0, []) := by rfl

/-- C3 (amended): when the filesystem path source is reached and the path
completer errors, ChatCompleter::complete swallows the error and returns Ok with
the original word span and an empty candidate list, indistinguishable from an
empty result. -/
theorem path_error_amended
    (promptOracle : Option Str → Except Str (List Str))
    (pathOracle : Str → Nat → Except ReadlineError (Nat × List Str))
    (line : Str) (pos : Nat) (e : ReadlineError)
    (h1 : startsWithChar '/' (extract_word line pos).2 = false)
    (h2 : startsWithChar '@' line = false)
    (h3 : pathOracle line pos = .error e) :
    ChatCompleter.complete promptOracle pathOracle line pos
      = .ok ((extract_word line pos).1, []) := by
  simp [ChatCompleter.complete, h1, h2, path_fallback, h3]

/-- C3 amended witness at line "hello" with an erroring path completer. -/
theorem path_error_amended_witness :
    ChatCompleter.complete (fun _ => Except.ok [])
      (fun _ _ => Except.error (ReadlineError.io (str "x"))) (str "hello") 5
      = Except.ok (0, []) := by
  have h := path_error_amended (fun _ => Except.ok [])
    (fun _ _ => Except.error (ReadlineError.io (str "x"))) (str "hello") 5
    (ReadlineError.io (str "x")) (by decide) (by decide) rfl
  exact h

/-- The path fallback always returns Ok, whatever the path oracle does. -/
lemma path_fallback_isOk
    (pathOracle : Str → Nat → Except ReadlineError (Nat × List Str))
    (line : Str) (pos start : Nat) :
    ∃ r, path_fallback pathOracle line pos start = Except.ok r := by
  cases h : pathOracle line pos with
  | error e => exact ⟨(start, []), by simp [path_fallback, h]⟩
  | ok pr =>
    obtain ⟨p, cs⟩ := pr
    by_cases hc : cs.isEmpty
    · exact ⟨(start, []), by simp [path_fallback, h, hc]⟩
    · exact ⟨(p, cs), by simp [path_fallback, h, hc]⟩

/-- C9: for every line, cursor position, channel state and path completer state,
ChatCompleter::complete returns Ok — the dispatcher as implemented never returns
an error to its caller. -/
theorem complete_always_ok
    (promptOracle : Option Str → Except Str (List Str))
    (pathOracle : Str → Nat → Except ReadlineError (Nat × List Str))
    (line : Str) (pos : Nat) :
    ∃ r, ChatCompleter.complete promptOracle pathOracle line pos = Except.ok r := by
  by_cases hs : startsWithChar '/' (extract_word line pos).2
  · exact ⟨complete_command (extract_word line pos).2 (extract_word line pos).1,
      by simp [ChatCompleter.complete, hs]⟩
  · by_cases ha : startsWithChar '@' line
    · cases hr : complete_prompt promptOracle (line.drop 1) with
      | error e =>
        rw [List.drop_one] at hr
        obtain ⟨r, hrr⟩ := path_fallback_isOk pathOracle line pos (extract_word line pos).1
        exact ⟨r, by simp [ChatCompleter.complete, hs, ha, hr, hrr]⟩
      | ok cs =>
        rw [List.drop_one] at hr
        cases cs with
        | nil =>
          obtain ⟨r, hrr⟩ := path_fallback_isOk pathOracle line pos (extract_word line pos).1
          exact ⟨r, by simp [ChatCompleter.complete, hs, ha, hr, hrr]⟩
        | cons a l =>
          exact ⟨(0, a :: l), by simp [ChatCompleter.complete, hs, ha, hr]⟩
    · obtain ⟨r, hrr⟩ := path_fallback_isOk pathOracle line pos (extract_word line pos).1
      exact ⟨r, by simp [ChatCompleter.complete, hs, ha, hrr]⟩

/-- C6: a command survives the OS filter of the help renderer iff its
supported_os contains "all" or the current OS tag; the surviving entries keep
the declaration order of HELP_COMMANDS; on "windows" the rendered command list
omits exactly "/editor" (whose supported_os is ["unix"]), which reappears on
"unix". -/
theorem help_entries_spec :
    (∀ t c, c ∈ help_entries t ↔ (c ∈ HELP_COMMANDS ∧ included_on c t = true)) ∧
    (∀ t, List.Sublist (help_entries t) HELP_COMMANDS) ∧
    (help_entries (str "windows")).map CommandHelp.command
      = [str "/clear", str "/issue", str "/help", str "/quit", str "/compact",
         str "/tools", str "/mcp", str "/model", str "/profile", str "/prompts",
         str "/context", str "/usage", str "/load", str "/save", str "/subscribe"] ∧
    (help_entries (str "unix")).map CommandHelp.command
      = [str "/clear", str "/issue", str "/editor", str "/help", str "/quit",
         str "/compact", str "/tools", str "/mcp", str "/model", str "/profile",
         str "/prompts", str "/context", str "/usage", str "/load", str "/save",
         str "/subscribe"] := by
  refine ⟨?_, ?_, ?_, ?_⟩
  · intro t c
    exact List.mem_filter
  · intro t
    exact List.filter_sublist _
  · decide
  · decide

/-- C7: the multi-line validator classifies a buffer as incomplete exactly when
it opens a triple-backtick fence without also ending in one, or ends in a
backslash; every buffer is classified either incomplete or valid. -/
theorem validator_spec (input : Str) :
    (MultiLineValidator.validate input = ValidationResult.incomplete ↔
      ((str "```" <+: input) ∧ ¬(str "```" <:+ input)) ∨ (str "\\" <:+ input)) ∧
    (MultiLineValidator.validate input = ValidationResult.incomplete ∨
      MultiLineValidator.validate input = ValidationResult.valid) := by
  have hs : startsWith (str "```") input = true ↔ str "```" <+: input :=
    List.isPrefixOf_iff_prefix
  have he1 : endsWith (str "```") input = true ↔ str "```" <:+ input := by
    unfold endsWith
    rw [List.isPrefixOf_iff_prefix, List.reverse_prefix]
  have he2 : endsWith (str "\\") input = true ↔ str "\\" <:+ input := by
    unfold endsWith
    rw [List.isPrefixOf_iff_prefix, List.reverse_prefix]
  constructor
  · unfold MultiLineValidator.validate
    by_cases h1 : startsWith (str "```") input <;>
      by_cases h2 : endsWith (str "```") input <;>
      by_cases h3 : endsWith (str "\\") input <;>
      simp [h1, h2, h3, ← hs, ← he1, ← he2]
  · unfold MultiLineValidator.validate
    by_cases h1 : startsWith (str "```") input && !endsWith (str "```") input <;>
      by_cases h3 : endsWith (str "\\") input <;>
      simp [h1, h3]

/-- C8: enable_ansi_support returns Ok on every execution path — an unavailable
stdout handle, a failing console-mode read, a failing console-mode write, and
the success path all yield Ok. -/
theorem enable_ansi_support_ok (h : Int) (g : Int → Option Nat)
    (s0 : Int → Nat → Bool) :
    enable_ansi_support h g s0 = Except.ok () := by
  unfold enable_ansi_support
  by_cases hh : h = 0
  · simp [hh]
  · simp only [hh, if_false]
    cases g h with
    | none => rfl
    | some m =>
      by_cases hs : s0 h (m ||| ENABLE_VIRTUAL_TERMINAL_PROCESSING) = false <;> simp [hs]
